import Mathlib

/-!
# Verification of the PKDTech payment-server core

A shallow embedding of the order / payment / wallet / lock logic of the
payment server (files `src/routes/orders.js`, `src/routes/payments.js`,
`src/firebase.js`, `src/utils/lock.js`, `src/utils/time.js`) together with
proofs about the embedded operations.

Conventions of the embedding:
* Firebase collections (`payments/…`, `wallet/…`, `system/locks/…`) are
  modelled as association lists or as functions `String → Option _`;
  `ref.set` / `ref.update` / `ref.transaction` become pure updates.
* `Date.now()` is a request-scoped parameter `now : Int` (milliseconds).
* JS numbers that carry money are modelled as `ℚ` so that the
  `Math.abs(a - b) > 0.01` tolerance check is exact.
* Each HTTP handler becomes a pure function from a request, an environment
  (the outcomes of the external lock / UPI / credit collaborators) and the
  store state, to a result and the new store state.
-/

unseal Rat.sub Rat.add Rat.mul Rat.inv

namespace PaymentServer

/-! ## Association-list store primitives

Firebase nodes keyed by id (`payments/<orderId>`, `wallet/<userId>/history/<orderId>`)
are embedded as association lists; `setA` is `ref.set` / keyed `update`
(overwrite when the key exists, create otherwise). -/

def lookupA {A : Type} (k : String) : List (String × A) → Option A
  | [] => none
  | (k', v) :: rest => if k' = k then some v else lookupA k rest

def setA {A : Type} (k : String) (v : A) : List (String × A) → List (String × A)
  | [] => [(k, v)]
  | (k', v') :: rest => if k' = k then (k, v) :: rest else (k', v') :: setA k v rest

theorem lookupA_setA_self {A : Type} (k : String) (v : A) (l : List (String × A)) :
    lookupA k (setA k v l) = some v := by
  induction l with
  | nil => simp [lookupA, setA]
  | cons p rest ih =>
    obtain ⟨k', v'⟩ := p
    by_cases h : k' = k
    · simp [lookupA, setA, h]
    · simp [lookupA, setA, h, ih]

theorem lookupA_setA_ne {A : Type} {k k' : String} (v : A) (l : List (String × A))
    (h : k' ≠ k) : lookupA k' (setA k v l) = lookupA k' l := by
  induction l with
  | nil => simp [lookupA, setA, Ne.symm h]
  | cons p rest ih =>
    obtain ⟨k0, v0⟩ := p
    by_cases hk : k0 = k
    · subst hk
      simp [lookupA, setA, Ne.symm h]
    · simp [lookupA, setA, hk, ih]

theorem lookupA_eq_none_iff {A : Type} (k : String) (l : List (String × A)) :
    lookupA k l = none ↔ k ∉ l.map Prod.fst := by
  induction l with
  | nil => simp [lookupA]
  | cons p rest ih =>
    obtain ⟨k0, v0⟩ := p
    by_cases h : k0 = k
    · simp [lookupA, h]
    · simp [lookupA, h, ih, Ne.symm h]

theorem setA_eq_append_of_not_mem {A : Type} {k : String} (v : A) {l : List (String × A)}
    (h : lookupA k l = none) : setA k v l = l ++ [(k, v)] := by
  induction l with
  | nil => simp [setA]
  | cons p rest ih =>
    obtain ⟨k0, v0⟩ := p
    by_cases hk : k0 = k
    · simp [lookupA, hk] at h
    · simp [lookupA, hk] at h
      simp [setA, hk, ih h]

theorem keys_setA {A : Type} (k : String) (v : A) (l : List (String × A)) :
    (setA k v l).map Prod.fst =
      if k ∈ l.map Prod.fst then l.map Prod.fst else l.map Prod.fst ++ [k] := by
  induction l with
  | nil => simp [setA]
  | cons p rest ih =>
    obtain ⟨k0, v0⟩ := p
    by_cases hk : k0 = k
    · subst hk
      simp [setA]
    · simp only [setA, if_neg hk, List.map_cons, ih, List.mem_cons]
      by_cases hmem : k ∈ rest.map Prod.fst
      · simp [hmem, Ne.symm hk]
      · simp [hmem, Ne.symm hk]

theorem keys_setA_nodup {A : Type} (k : String) (v : A) {l : List (String × A)}
    (h : (l.map Prod.fst).Nodup) : ((setA k v l).map Prod.fst).Nodup := by
  rw [keys_setA]
  by_cases hmem : k ∈ l.map Prod.fst
  · simpa [hmem] using h
  · simp [hmem, List.nodup_append, h]

theorem setA_setA {A : Type} (k : String) (v1 v2 : A) (l : List (String × A)) :
    setA k v2 (setA k v1 l) = setA k v2 l := by
  induction l with
  | nil => simp [setA]
  | cons p rest ih =>
    obtain ⟨k0, v0⟩ := p
    by_cases hk : k0 = k
    · simp [setA, hk]
    · simp [setA, hk, ih]

theorem lookupA_of_mem_nodup {A : Type} {k : String} {v : A} {l : List (String × A)}
    (hmem : (k, v) ∈ l) (hnd : (l.map Prod.fst).Nodup) : lookupA k l = some v := by
  induction l with
  | nil => simp at hmem
  | cons p rest ih =>
    obtain ⟨k0, v0⟩ := p
    simp only [List.map_cons, List.nodup_cons] at hnd
    rcases List.mem_cons.mp hmem with h | h
    · injection h with h1 h2
      subst h1
      subst h2
      simp [lookupA]
    · have hk : k0 ≠ k := by
        rintro rfl
        exact hnd.1 (List.mem_map.mpr ⟨(k0, v), h, rfl⟩)
      simp [lookupA, hk, ih h hnd.2]

theorem lookupA_append {A : Type} (k : String) (l1 l2 : List (String × A)) :
    lookupA k (l1 ++ l2) =
      (match lookupA k l1 with
       | some v => some v
       | none => lookupA k l2) := by
  induction l1 with
  | nil => simp [lookupA]
  | cons p rest ih =>
    obtain ⟨k0, v0⟩ := p
    by_cases hk : k0 = k
    · simp [lookupA, hk]
    · simp [lookupA, hk, ih]

/-! ## `src/utils/time.js` -/

/-- `calculateExpiryTime(createdAt, expiryMinutes)` (time.js 72-74):
`createdAt + expiryMinutes * 60 * 1000`. -/
def calculateExpiryTime (createdAt expiryMinutes : Int) : Int :=
  createdAt + expiryMinutes * 60 * 1000

/-- `checkExpiry(createdAt, expiryMinutes)` (time.js 82-86): true iff
`Date.now() > calculateExpiryTime(...)`; the clock read `getCurrentTimestamp()`
is the explicit parameter `now`. -/
def checkExpiry (createdAt expiryMinutes now : Int) : Bool :=
  now > calculateExpiryTime createdAt expiryMinutes

/-- JS `Math.abs` on the rational embedding of JS numbers. -/
def absQ (q : ℚ) : ℚ := if q < 0 then -q else q

/-- JS `Math.max` on integers. -/
def maxI (a b : Int) : Int := if a ≤ b then b else a

/-! ## `src/config.js` constants used by the core logic -/

def ORDER_EXPIRY_MINUTES : Int := 5

def MIN_AMOUNT : ℚ := 10

def MAX_AMOUNT : ℚ := 10000

/-! ## `src/utils/lock.js` — the distributed lock store

The store node `system/locks/<lockKey>` is a function `String → Option Lock`.
The in-memory `lockCache` is an accelerator only (it can merely cause an
early refusal of `acquireLock`); the authoritative compare-and-swap is the
Firebase transaction, which is what is embedded here. -/

structure Lock where
  token : String
  acquiredAt : Int
  expiresAt : Int
  timeoutMs : Int
  previousToken : Option String := none
deriving DecidableEq

def LockStore : Type := String → Option Lock

def emptyLockStore : LockStore := fun _ => none

/-- The transaction function of `acquireLock` (lock.js 89-116): install a new
lock when the slot is free or the present lock has expired, otherwise leave
the present lock in place. -/
def acquireTxn (currentLock : Option Lock) (lockToken : String) (now lockExpiresAt timeoutMs : Int) :
    Lock :=
  match currentLock with
  | none =>
      { token := lockToken, acquiredAt := now, expiresAt := lockExpiresAt, timeoutMs := timeoutMs }
  | some l =>
      if l.expiresAt < now then
        { token := lockToken, acquiredAt := now, expiresAt := lockExpiresAt,
          timeoutMs := timeoutMs, previousToken := some l.token }
      else l

/-- `acquireLock` (lock.js 74-151), one store round-trip: run the transaction
and report acquisition iff the committed value carries the caller's token
(lock.js 118). Retries re-run the same transaction, so a single round-trip
captures the store-level behaviour. Returns the new store and the
acquisition verdict. -/
def acquireLock (store : LockStore) (lockKey lockToken : String) (now timeoutMs : Int) :
    LockStore × Bool :=
  let newVal := acquireTxn (store lockKey) lockToken now (now + timeoutMs) timeoutMs
  (fun k => if k = lockKey then some newVal else store k, newVal.token = lockToken)

/-- The transaction function of `releaseLock` (lock.js 170-184): clear when
absent; when a token is supplied, clear only if it matches the stored token;
when no token is supplied, clear unconditionally. -/
def releaseTxn (currentLock : Option Lock) (lockToken : Option String) : Option Lock :=
  match currentLock with
  | none => none
  | some l =>
      match lockToken with
      | some t => if l.token ≠ t then some l else none
      | none => none

/-- `releaseLock` (lock.js 159-198). The transaction function never aborts,
so `result.committed` is always true and the function returns `true` on
every non-throwing run (lock.js 186-189); the `return false` at lock.js 192
is unreachable. -/
def releaseLock (store : LockStore) (lockKey : String) (lockToken : Option String) :
    LockStore × Bool :=
  (fun k => if k = lockKey then releaseTxn (store lockKey) lockToken else store k, true)

/-- Lock key taken by `router.post('/verify')` (payments.js 59). -/
def verifyLockKey (orderId : String) : String := "payment:verify:" ++ orderId

/-- Lock key taken by cancel (orders.js 246), the lazy expiry (orders.js 159,
178), the batch sweep (orders.js 397) and recheck (payments.js 301). -/
def orderLockKey (orderId : String) : String := "order:" ++ orderId

/-! ## `withIdempotency` (lock.js 323-372) -/

structure CacheEntry (R : Type) where
  result : R
  expiresAt : Int
deriving DecidableEq

structure IdemRecord (R : Type) where
  result : R
  expiresAt : Int
  storedAt : Int
  key : String
deriving DecidableEq

structure IdemOut (R : Type) where
  result : R
  mem : String → Option (CacheEntry R)
  dur : String → Option (IdemRecord R)
  executed : Bool

/-- `withIdempotency(idempotencyKey, operation)` (lock.js 323-372).
`mem` is the in-process `lockCache` (under keys `idempotency:<key>`), `dur`
the durable node `system/idempotency/<key>`; `op` is the value `operation()`
would produce, `executed` records whether `operation` was invoked.
Note the memory-cache branch (lock.js 328-332) returns the cached result
without consulting `expiresAt`; only the Firebase branch (lock.js 336-350)
checks the TTL. -/
def withIdempotency {R : Type} (mem : String → Option (CacheEntry R))
    (dur : String → Option (IdemRecord R)) (key : String) (op : R) (now : Int) : IdemOut R :=
  let memoryKey := "idempotency:" ++ key
  match mem memoryKey with
  | some cached => ⟨cached.result, mem, dur, false⟩
  | none =>
    let exec : IdemOut R :=
      let result := op
      let expiresAt := now + 5 * 60 * 1000
      ⟨result,
       fun k => if k = memoryKey then some ⟨result, expiresAt⟩ else mem k,
       fun k => if k = key then
           some ⟨result, expiresAt, now, key.take 32⟩ else dur k,
       true⟩
    match dur key with
    | some data =>
        if data.expiresAt > now then
          ⟨data.result,
           fun k => if k = memoryKey then some ⟨data.result, data.expiresAt⟩ else mem k,
           dur, false⟩
        else exec
    | none => exec

/-! ## Data model: orders (`payments/<orderId>`), wallets (`wallet/<userId>`) -/

inductive Status where
  | PENDING
  | SUCCESS
  | CANCELLED
  | EXPIRED
deriving DecidableEq

/-- An order record as written by `POST /api/order/create` (orders.js 68-84)
and patched by the `updatePaymentOrder` call sites (firebase.js 142-158
merges `{status, updatedAt, ...updateData}` into the record).
The `metadata` blob is omitted: no embedded operation reads it. -/
structure Order where
  orderId : String
  amount : ℚ
  userId : String
  userPhone : String := ""
  userName : String := ""
  upiId : String := ""
  upiName : String := ""
  status : Status
  createdAt : Int
  expiresAt : Int
  updatedAt : Option Int := none
  verifiedAt : Option Int := none
  transactionId : Option String := none
  transactionRef : Option String := none
  verifiedBy : Option String := none
  upiIdUsed : Option String := none
  amountReceived : Option ℚ := none
  verificationError : Option String := none
  errorDetails : Option String := none
  autoExpiredAt : Option Int := none
  expiryReason : Option String := none
  cancelledAt : Option Int := none
  cancelledBy : Option String := none
deriving DecidableEq

inductive TxnType where
  | CREDIT
  | DEBIT
  | REFUND
  | BONUS
  | PENALTY
deriving DecidableEq

/-- A history entry `wallet/<userId>/history/<orderId>` (firebase.js 196-204). -/
structure Txn where
  orderId : String
  amount : ℚ
  type : TxnType
  timestamp : Int
  previousBalance : ℚ
  newBalance : ℚ
deriving DecidableEq

/-- A wallet record `wallet/<userId>`; `history` is keyed by `orderId`
(firebase.js 174-204). -/
structure Wallet where
  balance : ℚ
  createdAt : Int
  updatedAt : Int
  history : List (String × Txn) := []
deriving DecidableEq

/-- The balance transaction of `updateWalletBalance` (firebase.js 174-189):
create `{balance: amount}` when the wallet is absent, else
`balance := (balance || 0) + amount`. This is the first of the TWO separate
store writes of a credit; it commits on its own. -/
def creditBalance (w : Option Wallet) (amount : ℚ) (now : Int) : Wallet :=
  match w with
  | none => { balance := amount, createdAt := now, updatedAt := now, history := [] }
  | some w => { w with balance := w.balance + amount, updatedAt := now }

/-- The history write of `updateWalletBalance` (firebase.js 196-204):
`wallet/<userId>/history/<orderId>.set({...})`, issued only after the
balance transaction committed. -/
def creditHistory (w : Wallet) (amount : ℚ) (orderId : String)
    (transactionType : TxnType) (now : Int) : Wallet :=
  let txn : Txn :=
    { orderId := orderId, amount := amount, type := transactionType, timestamp := now,
      previousBalance := w.balance - amount, newBalance := w.balance }
  { w with history := setA orderId txn w.history }

/-- `updateWalletBalance(userId, amount, orderId, transactionType)`
(firebase.js 168-213), fully successful run: the balance transaction
followed by the history write. A run that throws between the two writes
leaves only `creditBalance` applied (see `CreditOutcome.historyFault`). -/
def updateWalletBalance (w : Option Wallet) (amount : ℚ) (orderId : String)
    (transactionType : TxnType) (now : Int) : Wallet :=
  creditHistory (creditBalance w amount now) amount orderId transactionType now

/-- The two top-level collections the embedded operations touch. -/
structure SysState where
  orders : List (String × Order)
  wallets : List (String × Wallet)
deriving DecidableEq

def initState : SysState := { orders := [], wallets := [] }

/-- Store-write events of one handler run, in program order: each
`updatePaymentOrder` status write, each fully committed wallet credit
(balance transaction plus history write), and each balance-transaction
commit whose follow-up history write then failed. -/
inductive SysEv where
  | orderWrite (orderId : String) (status : Status)
  | walletCredit (userId orderId : String) (amount : ℚ)
  | walletBalanceWrite (userId : String) (amount : ℚ)
deriving DecidableEq

/-! ## `POST /api/order/create` (orders.js 18-129) -/

structure CreateReq where
  amount : ℚ
  userId : String
  userPhone : String := ""
  userName : String := ""
deriving DecidableEq

/-- Request-scoped externals of `create`: the generated `orderId`
(orders.js 53), the clock, and the outcome of `getUPIDetails()`
(none = the fetch threw). -/
structure CreateEnv where
  orderId : String
  now : Int
  upiDetails : Option (String × String)
deriving DecidableEq

inductive CreateResult where
  | validationError
  | invalidAmount
  | amountLimitError
  | upiFetchError
  | orderSaveError
  | created (orderId : String)
deriving DecidableEq

def createOrder (env : CreateEnv) (req : CreateReq) (s : SysState) : CreateResult × SysState :=
  -- orders.js 23-29: `if (!amount || !userId)`
  if req.amount = 0 ∨ req.userId = "" then (.validationError, s)
  -- orders.js 32-39
  else if req.amount ≤ 0 then (.invalidAmount, s)
  -- orders.js 42-50
  else if req.amount < MIN_AMOUNT ∨ req.amount > MAX_AMOUNT then (.amountLimitError, s)
  else
    match env.upiDetails with
    | none => (.upiFetchError, s)  -- orders.js 59-65
    | some upi =>
      -- orders.js 68-88: build the order and `savePaymentOrder` (ref.set)
      let orderData : Order :=
        { orderId := env.orderId, amount := req.amount, userId := req.userId,
          userPhone := req.userPhone, userName := req.userName,
          upiId := upi.1, upiName := upi.2, status := .PENDING,
          createdAt := env.now,
          expiresAt := env.now + ORDER_EXPIRY_MINUTES * 60 * 1000 }
      (.created env.orderId, { s with orders := setA env.orderId orderData s.orders })

/-! ## `POST /api/payment/verify` (payments.js 17-235) -/

structure VerifyReq where
  orderId : String
  transactionId : String
  transactionRef : Option String := none
  upiId : String
  amount : ℚ
  userId : String
  transactionNote : Option String := none
deriving DecidableEq

/-- Outcome of one `updateWalletBalance` call as seen by its caller.
The credit is TWO separate store writes (firebase.js 174-189 then
196-204), so besides full success there are two failure points:
* `balanceFault` — the balance transaction itself threw or did not commit
  (firebase.js 191-193 throws); the wallet is untouched;
* `historyFault` — the balance transaction committed but the subsequent
  `historyRef.set` threw; the balance is durably incremented with no
  history entry, and the call still throws to the caller. -/
inductive CreditOutcome where
  | ok
  | balanceFault
  | historyFault
deriving DecidableEq

/-- Request-scoped externals of `verify`: whether the
`payment:verify:<orderId>` lock was acquired (payments.js 60), the result of
`isLocked('order:<orderId>')` (payments.js 110), the outcome of
`getUPIDetails()` (payments.js 135, none = it threw), the outcome of the
wallet credit (payments.js 179-184), the message of the credit error, and
the clock. -/
structure VerifyEnv where
  verifyLockOk : Bool
  orderLockHeld : Bool
  upiDetails : Option String
  credit : CreditOutcome
  creditErrMsg : String := ""
  now : Int
deriving DecidableEq

inductive VerifyResult where
  | validationError
  | invalidAmount
  | verificationInProgress
  | orderNotFound
  | orderInvalidStatus (current : Status)
  | orderExpired
  | orderCancelled
  | amountMismatch
  | upiVerificationError
  | upiMismatch
  | walletCreditError
  | success (walletBalance : ℚ)
deriving DecidableEq

structure VerifyOut where
  result : VerifyResult
  state : SysState
  events : List SysEv
deriving DecidableEq

/-- Steps 9-11 of `router.post('/verify')` (payments.js 166-223), reached
once every check has passed on the pending order `o`: write SUCCESS, then
credit the wallet; when `updateWalletBalance` throws — at either of its two
failure points — roll the order back to PENDING with the error annotation.
If the credit failed *after* its balance transaction committed
(`historyFault`), the wallet keeps the incremented balance with no history
entry: the rollback at payments.js 187 touches only the order. -/
def verifyCommit (env : VerifyEnv) (req : VerifyReq) (s : SysState) (o : Order) : VerifyOut :=
  -- payments.js 167-174: Step 9, mark the order SUCCESS
  let oS := { o with status := Status.SUCCESS, updatedAt := some env.now,
                     verifiedAt := some env.now,
                     transactionId := some req.transactionId,
                     transactionRef := some (req.transactionRef.getD req.transactionId),
                     verifiedBy := some "SERVER_AUTO_VERIFY",
                     upiIdUsed := some req.upiId,
                     amountReceived := some req.amount }
  let s1 := { s with orders := setA req.orderId oS s.orders }
  -- payments.js 185-190: the rollback record used on either credit failure
  let oP := { oS with status := Status.PENDING, updatedAt := some env.now,
                      verificationError := some "WALLET_CREDIT_FAILED",
                      errorDetails := some env.creditErrMsg }
  match env.credit with
  | .ok =>
    -- payments.js 179-184: Step 10, credit the wallet (both writes commit)
    let w := updateWalletBalance (lookupA req.userId s1.wallets) req.amount
               req.orderId .CREDIT env.now
    ⟨.success w.balance, { s1 with wallets := setA req.userId w s1.wallets },
     [.orderWrite req.orderId .SUCCESS,
      .walletCredit req.userId req.orderId req.amount]⟩
  | .balanceFault =>
    -- the balance transaction failed (firebase.js 191-193): wallet untouched,
    -- payments.js 185-200 rolls the order back to PENDING
    ⟨.walletCreditError,
     { s1 with orders := setA req.orderId oP s1.orders },
     [.orderWrite req.orderId .SUCCESS, .orderWrite req.orderId .PENDING]⟩
  | .historyFault =>
    -- the balance transaction committed but the history write threw
    -- (firebase.js 196-204): balance incremented, no history entry; the call
    -- throws, so payments.js 185-200 still rolls the order back to PENDING
    let w := creditBalance (lookupA req.userId s1.wallets) req.amount env.now
    ⟨.walletCreditError,
     { orders := setA req.orderId oP s1.orders,
       wallets := setA req.userId w s1.wallets },
     [.orderWrite req.orderId .SUCCESS,
      .walletBalanceWrite req.userId req.amount,
      .orderWrite req.orderId .PENDING]⟩

def verifyPayment (env : VerifyEnv) (req : VerifyReq) (s : SysState) : VerifyOut :=
  -- payments.js 33-46: missing-field check (JS falsiness on the fields)
  if req.orderId = "" ∨ req.transactionId = "" ∨ req.upiId = "" ∨ req.amount = 0 ∨
      req.userId = "" then ⟨.validationError, s, []⟩
  -- payments.js 49-56
  else if req.amount ≤ 0 then ⟨.invalidAmount, s, []⟩
  -- payments.js 59-68: acquireLock(`payment:verify:${orderId}`)
  else if env.verifyLockOk = false then ⟨.verificationInProgress, s, []⟩
  else
    match lookupA req.orderId s.orders with
    | none => ⟨.orderNotFound, s, []⟩  -- payments.js 71-79
    | some o =>
      -- payments.js 82-90: Step 2, status gate
      if o.status ≠ .PENDING then ⟨.orderInvalidStatus o.status, s, []⟩
      -- payments.js 93-107: Step 3, auto-expire before verification
      else if checkExpiry o.createdAt ORDER_EXPIRY_MINUTES env.now then
        let o' := { o with status := .EXPIRED, updatedAt := some env.now,
                           autoExpiredAt := some env.now,
                           expiryReason := some "EXPIRED_BEFORE_VERIFICATION" }
        ⟨.orderExpired, { s with orders := setA req.orderId o' s.orders },
         [.orderWrite req.orderId .EXPIRED]⟩
      -- payments.js 110-117: Step 4 (status is PENDING here, so the first
      -- disjunct is vacuous; the branch fires exactly on the isLocked probe)
      else if o.status = .CANCELLED ∨ env.orderLockHeld = true then ⟨.orderCancelled, s, []⟩
      -- payments.js 120-130: Step 5, amount tolerance 0.01
      else if absQ (req.amount - o.amount) > 1 / 100 then ⟨.amountMismatch, s, []⟩
      else
        match env.upiDetails with
        | none => ⟨.upiVerificationError, s, []⟩  -- payments.js 134-143
        | some upi =>
          if upi ≠ req.upiId then ⟨.upiMismatch, s, []⟩  -- payments.js 145-154
          else verifyCommit env req s o

/-! ## `POST /api/order/cancel` (orders.js 230-333) -/

structure CancelReq where
  orderId : String
  userId : String
deriving DecidableEq

/-- Externals of `cancel`: whether `acquireLock('order:<orderId>')`
(orders.js 247) succeeded, and the clock. -/
structure CancelEnv where
  lockOk : Bool
  now : Int
deriving DecidableEq

inductive CancelResult where
  | validationError
  | orderBeingProcessed
  | orderNotFound
  | unauthorized
  | orderNotCancellable (current : Status)
  | orderExpired
  | cancelled
deriving DecidableEq

def cancelOrder (env : CancelEnv) (req : CancelReq) (s : SysState) : CancelResult × SysState :=
  -- orders.js 237-243
  if req.orderId = "" ∨ req.userId = "" then (.validationError, s)
  -- orders.js 246-255
  else if env.lockOk = false then (.orderBeingProcessed, s)
  else
    match lookupA req.orderId s.orders with
    | none => (.orderNotFound, s)  -- orders.js 260-267
    | some o =>
      -- orders.js 270-277
      if o.userId ≠ req.userId then (.unauthorized, s)
      -- orders.js 280-288
      else if o.status ≠ .PENDING then (.orderNotCancellable o.status, s)
      -- orders.js 291-299: expired pending orders are NOT cancellable (and
      -- are left untouched here)
      else if checkExpiry o.createdAt ORDER_EXPIRY_MINUTES env.now then (.orderExpired, s)
      else
        -- orders.js 302-305
        let o' := { o with status := .CANCELLED, updatedAt := some env.now,
                           cancelledAt := some env.now, cancelledBy := some req.userId }
        (.cancelled, { s with orders := setA req.orderId o' s.orders })

/-! ## `GET /api/order/:orderId` (orders.js 135-224) -/

/-- Outcome of an `acquireLock` call as seen by a caller:
`acquired` (a token came back), `refused` (`false` came back after the
attempts were exhausted or the memory cache short-circuited), `fault`
(the store threw and `acquireLock` re-threw, lock.js 140-146). -/
inductive LockOutcome where
  | acquired
  | refused
  | fault
deriving DecidableEq

/-- Externals of the order fetch: the `isLocked('order:<orderId>')` probe
(orders.js 159), the `acquireLock` outcome of the lazy-expiry attempt
(orders.js 178), and the clock. -/
structure GetEnv where
  isLockedResult : Bool
  acquireOutcome : LockOutcome
  now : Int
deriving DecidableEq

inductive GetResult where
  | validationError
  | orderNotFound
  | orderLocked
  | ok (status : Status) (isExpired : Bool)
deriving DecidableEq

def getOrder (env : GetEnv) (orderId : String) (s : SysState) : GetResult × SysState :=
  if orderId = "" then (.validationError, s)  -- orders.js 139-145
  else
    match lookupA orderId s.orders with
    | none => (.orderNotFound, s)  -- orders.js 150-156
    | some o =>
      -- orders.js 159-166
      if env.isLockedResult then (.orderLocked, s)
      else
        -- orders.js 169-173
        let remainingTime := maxI 0 (o.expiresAt - env.now)
        let isExpired := remainingTime = 0
        -- orders.js 176-187: the lazy expiry. `await acquireLock(...)`
        -- returns `false` on refusal, and that value is DISCARDED: the
        -- status write runs for both `acquired` and `refused`; only a
        -- thrown store fault reaches the catch block and skips the write.
        if isExpired ∧ o.status = .PENDING then
          match env.acquireOutcome with
          | .fault => (.ok o.status (decide isExpired), s)
          | _ =>
            let o' := { o with status := .EXPIRED, updatedAt := some env.now,
                               autoExpiredAt := some env.now }
            (.ok .EXPIRED (decide isExpired),
             { s with orders := setA orderId o' s.orders })
        else (.ok o.status (decide isExpired), s)

/-! ## `POST /api/payment/recheck` (payments.js 241-394) -/

structure RecheckReq where
  orderId : String
  userId : String
deriving DecidableEq

structure RecheckEnv where
  acquireOutcome : LockOutcome
  now : Int
deriving DecidableEq

inductive RecheckResult where
  | validationError
  | orderNotFound
  | unauthorized
  | alreadySuccess
  | stillPending
  | orderExpired
  | orderCancelled
  | orderWasExpired
deriving DecidableEq

def recheckPayment (env : RecheckEnv) (req : RecheckReq) (s : SysState) :
    RecheckResult × SysState :=
  -- payments.js 245-251
  if req.orderId = "" ∨ req.userId = "" then (.validationError, s)
  else
    match lookupA req.orderId s.orders with
    | none => (.orderNotFound, s)  -- payments.js 256-262
    | some o =>
      -- payments.js 265-271
      if o.userId ≠ req.userId then (.unauthorized, s)
      else
        match o.status with
        | .SUCCESS => (.alreadySuccess, s)  -- payments.js 281-294
        | .PENDING =>
          -- payments.js 296-351
          if env.now - o.createdAt > ORDER_EXPIRY_MINUTES * 60 * 1000 then
            match env.acquireOutcome with
            | .acquired =>
              -- payments.js 304-309
              let o' := { o with status := .EXPIRED, updatedAt := some env.now,
                                 autoExpiredAt := some env.now,
                                 expiryReason := some "EXPIRED_ON_RECHECK" }
              (.orderExpired, { s with orders := setA req.orderId o' s.orders })
            | .refused =>
              -- lockAcquired === false skips the write, but the handler
              -- still returns the ORDER_EXPIRED response (payments.js 312)
              (.orderExpired, s)
            | .fault =>
              -- payments.js 323-336: catch → "still pending" response
              (.stillPending, s)
          else (.stillPending, s)
        | .CANCELLED => (.orderCancelled, s)  -- payments.js 353-364
        | .EXPIRED => (.orderWasExpired, s)  -- payments.js 366-377

/-! ## `expirePendingOrders` (orders.js 369-422) -/

/-- Externals of the batch sweep: the `acquireLock` outcome per order and
the single `currentTime = Date.now()` read (orders.js 386). -/
structure ExpireEnv where
  acquire : String → LockOutcome
  now : Int

/-- The `for (const orderId in orders)` body (orders.js 389-413): orders of
the PENDING snapshot older than the expiry window are written EXPIRED when
the per-order lock is acquired; a refusal skips the order
(`if (lockAcquired)`), and a thrown fault is caught and skipped. -/
def expireLoop (env : ExpireEnv) : List (String × Order) → SysState → Nat → Nat × SysState
  | [], s, count => (count, s)
  | (oid, o) :: rest, s, count =>
    if env.now - o.createdAt > ORDER_EXPIRY_MINUTES * 60 * 1000 then
      match env.acquire oid with
      | .acquired =>
        -- orders.js 401-404: updatePaymentOrder merges into the stored
        -- record (which the loop never deletes, so it is present)
        let s' :=
          match lookupA oid s.orders with
          | some cur =>
            let cur' := { cur with
                          status := Status.EXPIRED,
                          updatedAt := some env.now, autoExpiredAt := some env.now,
                          expiryReason := some "AUTO_EXPIRED_BY_SYSTEM" }
            { s with orders := setA oid cur' s.orders }
          | none => s
        expireLoop env rest s' (count + 1)
      | _ => expireLoop env rest s count
    else expireLoop env rest s count

/-- `expirePendingOrders(batchSize)` (orders.js 369-422): snapshot the
PENDING orders (`orderByChild('status').equalTo('PENDING').limitToFirst`),
then run the loop. Returns `{expired: count}` and the new store. -/
def expirePendingOrders (env : ExpireEnv) (batchSize : Nat) (s : SysState) : Nat × SysState :=
  let pending := (s.orders.filter fun p => p.2.status = .PENDING).take batchSize
  expireLoop env pending s 0

/-! ## The transition system and its invariants

A step is one complete handler run with an arbitrary request, arbitrary
collaborator outcomes and an arbitrary clock. `createOrder` steps carry the
freshness of the generated id (time.js 10-23 documents `generateOrderId` as
producing unique ids; `savePaymentOrder` is a blind `ref.set`, so this is
an assumption of the code, recorded as a side condition). -/

inductive Step : SysState → SysState → Prop where
  | create (env : CreateEnv) (req : CreateReq) (s : SysState)
      (fresh : lookupA env.orderId s.orders = none) : Step s (createOrder env req s).2
  | verify (env : VerifyEnv) (req : VerifyReq) (s : SysState) :
      Step s (verifyPayment env req s).state
  | cancel (env : CancelEnv) (req : CancelReq) (s : SysState) :
      Step s (cancelOrder env req s).2
  | get (env : GetEnv) (orderId : String) (s : SysState) :
      Step s (getOrder env orderId s).2
  | recheck (env : RecheckEnv) (req : RecheckReq) (s : SysState) :
      Step s (recheckPayment env req s).2
  | expire (env : ExpireEnv) (batchSize : Nat) (s : SysState) :
      Step s (expirePendingOrders env batchSize s).2

def Reachable (s : SysState) : Prop := Relation.ReflTransGen Step initState s

/-- First half of the wallet-ledger invariant: the balance is the sum of
the signed history amounts. This half is broken by a credit that fails
between its balance commit and its history write. -/
def walletBalanceInv (w : Wallet) : Prop :=
  w.balance = (w.history.map fun p => p.2.amount).sum

/-- Second half of the wallet-ledger invariant: the history keys (order
ids) are distinct. This half holds in all executions. -/
def walletKeysInv (w : Wallet) : Prop :=
  (w.history.map Prod.fst).Nodup

/-- Orders whose stored status is not PENDING are untouched by the
transition from `s` to `s'`. -/
def ordersPendingOnlyChanged (s s' : SysState) : Prop :=
  ∀ oid o, lookupA oid s.orders = some o → o.status ≠ .PENDING →
    lookupA oid s'.orders = some o

/-- The global invariant that holds in ALL executions, partial credit
failures included: distinct keys in both collections, distinct history keys
in every wallet, and every history entry points to an order whose stored
status is SUCCESS (the coupling that makes a second history entry for the
same order unreachable through the PENDING gate). The balance half of the
ledger invariant is deliberately not here: see `BalancedInv`. -/
def SysInv (s : SysState) : Prop :=
  (s.orders.map Prod.fst).Nodup ∧
  (s.wallets.map Prod.fst).Nodup ∧
  (∀ uid w, lookupA uid s.wallets = some w → walletKeysInv w) ∧
  (∀ uid w oid t, lookupA uid s.wallets = some w → lookupA oid w.history = some t →
    ∃ o, lookupA oid s.orders = some o ∧ o.status = .SUCCESS)

/-- The balance half of the ledger invariant, for every wallet of a state.
It is preserved by every operation except a `verifyPayment` whose credit
fails between the balance commit and the history write. -/
def BalancedInv (s : SysState) : Prop :=
  ∀ uid w, lookupA uid s.wallets = some w → walletBalanceInv w

theorem oPOC_refl (s : SysState) : ordersPendingOnlyChanged s s :=
  fun _ _ hl _ => hl

theorem oPOC_trans {s t u : SysState} (h1 : ordersPendingOnlyChanged s t)
    (h2 : ordersPendingOnlyChanged t u) : ordersPendingOnlyChanged s u :=
  fun oid o hl hnp => h2 oid o (h1 oid o hl hnp) hnp

/-- Writing any record at a key that is currently absent or holds a PENDING
order preserves the global invariant and touches no non-PENDING order. -/
theorem orders_write_inv {s : SysState} {oid : String} (o' : Order) (h : SysInv s)
    (hcond : lookupA oid s.orders = none ∨
      ∃ o, lookupA oid s.orders = some o ∧ o.status = .PENDING) :
    SysInv { s with orders := setA oid o' s.orders } ∧
      ordersPendingOnlyChanged s { s with orders := setA oid o' s.orders } := by
  have hne_of : ∀ oid2 (o2 : Order), lookupA oid2 s.orders = some o2 →
      o2.status ≠ .PENDING → oid2 ≠ oid := by
    intro oid2 o2 hl hnp
    rintro rfl
    rcases hcond with hc | ⟨o, hc, hp⟩
    · rw [hc] at hl
      exact Option.noConfusion hl
    · rw [hc] at hl
      injection hl with e
      subst e
      exact hnp hp
  refine ⟨⟨keys_setA_nodup _ _ h.1, h.2.1, h.2.2.1, ?_⟩, ?_⟩
  · intro uid w oid2 t hw ht
    obtain ⟨o2, ho2, hs2⟩ := h.2.2.2 uid w oid2 t hw ht
    have hne : oid2 ≠ oid := hne_of oid2 o2 ho2 (by simp [hs2])
    exact ⟨o2, by rw [lookupA_setA_ne _ _ hne]; exact ho2, hs2⟩
  · intro oid2 o2 hl hnp
    have hne : oid2 ≠ oid := hne_of oid2 o2 hl hnp
    rw [lookupA_setA_ne _ _ hne]
    exact hl

theorem walletKeys_update_none (amount : ℚ) (orderId : String) (ttype : TxnType) (now : Int) :
    walletKeysInv (updateWalletBalance none amount orderId ttype now) := by
  simp [walletKeysInv, updateWalletBalance, creditBalance, creditHistory, setA]

theorem walletKeys_update_some {w : Wallet} (hw : walletKeysInv w) (amount : ℚ)
    (orderId : String) (ttype : TxnType) (now : Int)
    (habs : lookupA orderId w.history = none) :
    walletKeysInv (updateWalletBalance (some w) amount orderId ttype now) := by
  have hnm : orderId ∉ w.history.map Prod.fst := (lookupA_eq_none_iff _ _).mp habs
  have hw' : (w.history.map Prod.fst).Nodup := hw
  simp only [walletKeysInv, updateWalletBalance, creditBalance, creditHistory]
  rw [setA_eq_append_of_not_mem _ habs]
  simp [List.nodup_append, hw', hnm]

theorem walletBalance_update_none (amount : ℚ) (orderId : String) (ttype : TxnType)
    (now : Int) : walletBalanceInv (updateWalletBalance none amount orderId ttype now) := by
  simp [walletBalanceInv, updateWalletBalance, creditBalance, creditHistory, setA]

theorem walletBalance_update_some {w : Wallet} (hw : walletBalanceInv w) (amount : ℚ)
    (orderId : String) (ttype : TxnType) (now : Int)
    (habs : lookupA orderId w.history = none) :
    walletBalanceInv (updateWalletBalance (some w) amount orderId ttype now) := by
  have hw' : w.balance = (w.history.map fun p => p.2.amount).sum := hw
  simp only [walletBalanceInv, updateWalletBalance, creditBalance, creditHistory]
  rw [setA_eq_append_of_not_mem _ habs]
  simp [hw']

/-- A balance-only write (`creditBalance`) keeps the history list: with no
stored wallet it creates an empty history, otherwise it leaves the history
as it was. -/
theorem creditBalance_history (w : Option Wallet) (amount : ℚ) (now : Int) :
    (creditBalance w amount now).history =
      (match w with | none => [] | some w0 => w0.history) := by
  cases w <;> rfl

theorem walletKeys_creditBalance {w : Option Wallet}
    (hw : ∀ w0, w = some w0 → walletKeysInv w0) (amount : ℚ) (now : Int) :
    walletKeysInv (creditBalance w amount now) := by
  cases w with
  | none => simp [walletKeysInv, creditBalance]
  | some w0 => simpa [walletKeysInv, creditBalance] using hw w0 rfl

theorem lookupA_creditBalance_history {w : Option Wallet} {amount : ℚ} {now : Int}
    {oid2 : String} {t : Txn}
    (h : lookupA oid2 (creditBalance w amount now).history = some t) :
    ∃ w0, w = some w0 ∧ lookupA oid2 w0.history = some t := by
  cases w with
  | none => simp [creditBalance, lookupA] at h
  | some w0 => exact ⟨w0, rfl, h⟩

/-- History lookup in the fully credited wallet: either the entry was
already there, or it is the fresh entry at the credited order id. -/
theorem lookupA_history_update {w : Option Wallet} {amount : ℚ} {orderId : String}
    {ttype : TxnType} {now : Int} {oid2 : String} {t : Txn}
    (h : lookupA oid2 (updateWalletBalance w amount orderId ttype now).history = some t) :
    (∃ w0, w = some w0 ∧ lookupA oid2 w0.history = some t) ∨ oid2 = orderId := by
  by_cases he : oid2 = orderId
  · exact Or.inr he
  · left
    simp only [updateWalletBalance, creditHistory] at h
    rw [lookupA_setA_ne _ _ he] at h
    exact lookupA_creditBalance_history h

/-- In a state satisfying the coupling invariant, the id of a PENDING order
appears in no wallet's history. -/
theorem pending_not_in_history {s : SysState} {oid : String} {o : Order}
    (h : SysInv s) (heq : lookupA oid s.orders = some o) (hp : o.status = .PENDING)
    {uid : String} {w0 : Wallet} (hw0 : lookupA uid s.wallets = some w0) :
    lookupA oid w0.history = none := by
  cases hlo : lookupA oid w0.history with
  | none => rfl
  | some t =>
    obtain ⟨o2, ho2, hs2⟩ := h.2.2.2 uid w0 oid t hw0 hlo
    rw [heq] at ho2
    injection ho2 with e
    subst e
    simp [hp] at hs2

/-- Invariant preservation for the successful-credit tail of `verify`:
a SUCCESS write on a pending order together with the full wallet credit. -/
theorem verify_success_inv {s : SysState} {oid uid : String} {o : Order} (oS : Order)
    (hS : oS.status = .SUCCESS) (amount : ℚ) (now : Int)
    (h : SysInv s) (heq : lookupA oid s.orders = some o) (hp : o.status = .PENDING) :
    SysInv { orders := setA oid oS s.orders,
             wallets := setA uid
               (updateWalletBalance (lookupA uid s.wallets) amount oid .CREDIT now)
               s.wallets } ∧
    ordersPendingOnlyChanged s
      { orders := setA oid oS s.orders,
        wallets := setA uid
          (updateWalletBalance (lookupA uid s.wallets) amount oid .CREDIT now)
          s.wallets } := by
  have hnotin : ∀ w0, lookupA uid s.wallets = some w0 → lookupA oid w0.history = none :=
    fun w0 hw0 => pending_not_in_history h heq hp hw0
  refine ⟨⟨keys_setA_nodup _ _ h.1, keys_setA_nodup _ _ h.2.1, ?_, ?_⟩, ?_⟩
  · intro uid2 w2 hw2
    by_cases hu : uid2 = uid
    · subst hu
      rw [lookupA_setA_self] at hw2
      injection hw2 with e
      subst e
      cases hw0 : lookupA uid2 s.wallets with
      | none => exact walletKeys_update_none amount oid .CREDIT now
      | some w0 =>
        exact walletKeys_update_some (h.2.2.1 uid2 w0 hw0) amount oid .CREDIT now
          (hnotin w0 hw0)
    · rw [lookupA_setA_ne _ _ hu] at hw2
      exact h.2.2.1 uid2 w2 hw2
  · intro uid2 w2 oid2 t hw2 ht
    by_cases hu : uid2 = uid
    · subst hu
      rw [lookupA_setA_self] at hw2
      injection hw2 with e
      subst e
      rcases lookupA_history_update ht with ⟨w0, hw0, hold⟩ | rfl

      · obtain ⟨o2, ho2, hs2⟩ := h.2.2.2 uid2 w0 oid2 t hw0 hold
        have hne : oid2 ≠ oid := by
          rintro rfl
          rw [heq] at ho2
          injection ho2 with e
          subst e
          simp [hp] at hs2
        exact ⟨o2, by rw [lookupA_setA_ne _ _ hne]; exact ho2, hs2⟩
      · exact ⟨oS, lookupA_setA_self _ _ _, hS⟩
    · rw [lookupA_setA_ne _ _ hu] at hw2
      obtain ⟨o2, ho2, hs2⟩ := h.2.2.2 uid2 w2 oid2 t hw2 ht
      have hne : oid2 ≠ oid := by
        rintro rfl
        rw [heq] at ho2
        injection ho2 with e
        subst e
        simp [hp] at hs2
      exact ⟨o2, by rw [lookupA_setA_ne _ _ hne]; exact ho2, hs2⟩
  · intro oid2 o2 hl hnp
    have hne : oid2 ≠ oid := by
      rintro rfl
      rw [heq] at hl
      injection hl with e
      subst e
      exact hnp hp
    show lookupA oid2 (setA oid oS s.orders) = some o2
    rw [lookupA_setA_ne _ _ hne]
    exact hl

/-- Invariant preservation for the partially failed credit tail of
`verify`: the rollback write on the (momentarily SUCCESS) pending order
together with the balance-only wallet write left behind by the failed
`updateWalletBalance`. The balance half of the ledger invariant is NOT
preserved here — only the all-executions invariant is. -/
theorem verify_histfault_inv {s : SysState} {oid uid : String} {o : Order} (oP : Order)
    (amount : ℚ) (now : Int)
    (h : SysInv s) (heq : lookupA oid s.orders = some o) (hp : o.status = .PENDING) :
    SysInv { orders := setA oid oP s.orders,
             wallets := setA uid (creditBalance (lookupA uid s.wallets) amount now)
               s.wallets } ∧
    ordersPendingOnlyChanged s
      { orders := setA oid oP s.orders,
        wallets := setA uid (creditBalance (lookupA uid s.wallets) amount now)
          s.wallets } := by
  refine ⟨⟨keys_setA_nodup _ _ h.1, keys_setA_nodup _ _ h.2.1, ?_, ?_⟩, ?_⟩
  · intro uid2 w2 hw2
    by_cases hu : uid2 = uid
    · subst hu
      rw [lookupA_setA_self] at hw2
      injection hw2 with e
      subst e
      exact walletKeys_creditBalance (fun w0 hw0 => h.2.2.1 uid2 w0 hw0) amount now
    · rw [lookupA_setA_ne _ _ hu] at hw2
      exact h.2.2.1 uid2 w2 hw2
  · intro uid2 w2 oid2 t hw2 ht
    by_cases hu : uid2 = uid
    · subst hu
      rw [lookupA_setA_self] at hw2
      injection hw2 with e
      subst e
      obtain ⟨w0, hw0, hold⟩ := lookupA_creditBalance_history ht
      obtain ⟨o2, ho2, hs2⟩ := h.2.2.2 uid2 w0 oid2 t hw0 hold
      have hne : oid2 ≠ oid := by
        rintro rfl
        rw [heq] at ho2
        injection ho2 with e
        subst e
        simp [hp] at hs2
      exact ⟨o2, by rw [lookupA_setA_ne _ _ hne]; exact ho2, hs2⟩
    · rw [lookupA_setA_ne _ _ hu] at hw2
      obtain ⟨o2, ho2, hs2⟩ := h.2.2.2 uid2 w2 oid2 t hw2 ht
      have hne : oid2 ≠ oid := by
        rintro rfl
        rw [heq] at ho2
        injection ho2 with e
        subst e
        simp [hp] at hs2
      exact ⟨o2, by rw [lookupA_setA_ne _ _ hne]; exact ho2, hs2⟩
  · intro oid2 o2 hl hnp
    have hne : oid2 ≠ oid := by
      rintro rfl
      rw [heq] at hl
      injection hl with e
      subst e
      exact hnp hp
    show lookupA oid2 (setA oid oP s.orders) = some o2
    rw [lookupA_setA_ne _ _ hne]
    exact hl

theorem createOrder_inv {env : CreateEnv} {req : CreateReq} {s : SysState} (h : SysInv s)
    (fresh : lookupA env.orderId s.orders = none) :
    SysInv (createOrder env req s).2 ∧ ordersPendingOnlyChanged s (createOrder env req s).2 := by
  unfold createOrder
  split
  · exact ⟨h, oPOC_refl s⟩
  split
  · exact ⟨h, oPOC_refl s⟩
  split
  · exact ⟨h, oPOC_refl s⟩
  split
  · exact ⟨h, oPOC_refl s⟩
  · exact orders_write_inv _ h (Or.inl fresh)

theorem verifyCommit_inv {env : VerifyEnv} {req : VerifyReq} {s : SysState} {o : Order}
    (h : SysInv s) (heq : lookupA req.orderId s.orders = some o)
    (hp : o.status = .PENDING) :
    SysInv (verifyCommit env req s o).state ∧
      ordersPendingOnlyChanged s (verifyCommit env req s o).state := by
  simp only [verifyCommit]
  split
  · exact verify_success_inv _ rfl req.amount env.now h heq hp
  · show SysInv { s with orders := setA _ _ (setA _ _ s.orders) } ∧ _
    rw [setA_setA]
    exact orders_write_inv _ h (Or.inr ⟨o, heq, hp⟩)
  · show SysInv { orders := setA _ _ (setA _ _ s.orders),
                  wallets := setA _ (creditBalance (lookupA _ s.wallets) _ _) s.wallets } ∧ _
    rw [setA_setA]
    exact verify_histfault_inv _ req.amount env.now h heq hp

theorem verifyPayment_inv {env : VerifyEnv} {req : VerifyReq} {s : SysState} (h : SysInv s) :
    SysInv (verifyPayment env req s).state ∧
      ordersPendingOnlyChanged s (verifyPayment env req s).state := by
  delta verifyPayment
  split
  · exact ⟨h, oPOC_refl s⟩
  split
  · exact ⟨h, oPOC_refl s⟩
  split
  · exact ⟨h, oPOC_refl s⟩
  split
  · exact ⟨h, oPOC_refl s⟩
  next o heq =>
    split
    · exact ⟨h, oPOC_refl s⟩
    next hstat =>
      have hp : o.status = .PENDING := not_not.mp hstat
      split
      · exact orders_write_inv _ h (Or.inr ⟨o, heq, hp⟩)
      split
      · exact ⟨h, oPOC_refl s⟩
      split
      · exact ⟨h, oPOC_refl s⟩
      split
      · exact ⟨h, oPOC_refl s⟩
      next upi =>
        split
        · exact ⟨h, oPOC_refl s⟩
        · exact verifyCommit_inv h heq hp

theorem cancelOrder_inv {env : CancelEnv} {req : CancelReq} {s : SysState} (h : SysInv s) :
    SysInv (cancelOrder env req s).2 ∧ ordersPendingOnlyChanged s (cancelOrder env req s).2 := by
  unfold cancelOrder
  split
  · exact ⟨h, oPOC_refl s⟩
  split
  · exact ⟨h, oPOC_refl s⟩
  split
  · exact ⟨h, oPOC_refl s⟩
  next o heq =>
    split
    · exact ⟨h, oPOC_refl s⟩
    split
    · exact ⟨h, oPOC_refl s⟩
    next hstat =>
      have hp : o.status = .PENDING := not_not.mp hstat
      split
      · exact ⟨h, oPOC_refl s⟩
      · exact orders_write_inv _ h (Or.inr ⟨o, heq, hp⟩)

theorem getOrder_inv {env : GetEnv} {orderId : String} {s : SysState} (h : SysInv s) :
    SysInv (getOrder env orderId s).2 ∧ ordersPendingOnlyChanged s (getOrder env orderId s).2 := by
  simp only [getOrder]
  split
  · exact ⟨h, oPOC_refl s⟩
  split
  · exact ⟨h, oPOC_refl s⟩
  next o heq =>
    split
    · exact ⟨h, oPOC_refl s⟩
    split
    next hcond =>
      split
      · exact ⟨h, oPOC_refl s⟩
      · exact orders_write_inv _ h (Or.inr ⟨o, heq, hcond.2⟩)
    · exact ⟨h, oPOC_refl s⟩

theorem recheckPayment_inv {env : RecheckEnv} {req : RecheckReq} {s : SysState} (h : SysInv s) :
    SysInv (recheckPayment env req s).2 ∧
      ordersPendingOnlyChanged s (recheckPayment env req s).2 := by
  simp only [recheckPayment]
  split
  · exact ⟨h, oPOC_refl s⟩
  split
  · exact ⟨h, oPOC_refl s⟩
  next o heq =>
    split
    · exact ⟨h, oPOC_refl s⟩
    split
    · exact ⟨h, oPOC_refl s⟩
    next hp =>
      -- o.status = PENDING in this match arm
      split
      · split
        · exact orders_write_inv _ h (Or.inr ⟨o, heq, hp⟩)
        · exact ⟨h, oPOC_refl s⟩
        · exact ⟨h, oPOC_refl s⟩
      · exact ⟨h, oPOC_refl s⟩
    · exact ⟨h, oPOC_refl s⟩
    · exact ⟨h, oPOC_refl s⟩

theorem expireLoop_inv (env : ExpireEnv) (ps : List (String × Order)) :
    ∀ (s : SysState) (count : Nat), SysInv s →
      (∀ p ∈ ps, ∀ cur, lookupA p.1 s.orders = some cur → cur.status = .PENDING) →
      (ps.map Prod.fst).Nodup →
      SysInv (expireLoop env ps s count).2 ∧
        ordersPendingOnlyChanged s (expireLoop env ps s count).2 := by
  induction ps with
  | nil =>
    intro s count h _ _
    exact ⟨h, oPOC_refl s⟩
  | cons p rest ih =>
    obtain ⟨oid, o⟩ := p
    intro s count h hpend hnd
    simp only [List.map_cons, List.nodup_cons] at hnd
    have hpend_rest : ∀ p ∈ rest, ∀ cur, lookupA p.1 s.orders = some cur →
        cur.status = .PENDING :=
      fun p hp => hpend p (List.mem_cons_of_mem _ hp)
    simp only [expireLoop]
    split
    · split
      · -- lock acquired: the write happens (when the record is present)
        cases hl : lookupA oid s.orders with
        | none =>
          exact ih s (count + 1) h hpend_rest hnd.2
        | some cur =>
          have hcp : cur.status = .PENDING :=
            hpend (oid, o) (List.mem_cons_self _ _) cur hl
          let oE : Order := { cur with
                              status := Status.EXPIRED, updatedAt := some env.now,
                              autoExpiredAt := some env.now,
                              expiryReason := some "AUTO_EXPIRED_BY_SYSTEM" }
          have hw := orders_write_inv oE h (Or.inr ⟨cur, hl, hcp⟩)
          have hpend2 : ∀ p ∈ rest, ∀ cur2,
              lookupA p.1 (setA oid oE s.orders) = some cur2 →
              cur2.status = .PENDING := by
            intro p hp cur2 hl2
            have hne : p.1 ≠ oid := by
              intro hcontra
              exact hnd.1 (hcontra ▸ List.mem_map.mpr ⟨p, hp, rfl⟩)
            rw [lookupA_setA_ne _ _ hne] at hl2
            exact hpend_rest p hp cur2 hl2
          have ihr := ih { s with orders := setA oid oE s.orders }
            (count + 1) hw.1 hpend2 hnd.2
          exact ⟨ihr.1, oPOC_trans hw.2 ihr.2⟩
      · exact ih s count h hpend_rest hnd.2
    · exact ih s count h hpend_rest hnd.2

theorem expirePendingOrders_inv {env : ExpireEnv} {batchSize : Nat} {s : SysState}
    (h : SysInv s) :
    SysInv (expirePendingOrders env batchSize s).2 ∧
      ordersPendingOnlyChanged s (expirePendingOrders env batchSize s).2 := by
  unfold expirePendingOrders
  have hsub : List.Sublist ((s.orders.filter fun p => p.2.status = .PENDING).take batchSize)
      s.orders :=
    ((s.orders.filter fun p => p.2.status = .PENDING).take_sublist batchSize).trans
      (List.filter_sublist s.orders)
  apply expireLoop_inv
  · exact h
  · intro p hp cur hl
    have hmem : p ∈ s.orders := hsub.mem hp
    have hfil : p ∈ s.orders.filter fun p => p.2.status = .PENDING :=
      List.mem_of_mem_take hp
    have hpend : p.2.status = .PENDING := by
      have := (List.mem_filter.mp hfil).2
      simpa using this
    have : lookupA p.1 s.orders = some p.2 := lookupA_of_mem_nodup hmem h.1
    rw [this] at hl
    injection hl with e
    subst e
    exact hpend
  · exact (hsub.map Prod.fst).nodup h.1

theorem step_inv {s s' : SysState} (h : SysInv s) (st : Step s s') :
    SysInv s' ∧ ordersPendingOnlyChanged s s' := by
  cases st with
  | create env req s fresh => exact createOrder_inv h fresh
  | verify env req s => exact verifyPayment_inv h
  | cancel env req s => exact cancelOrder_inv h
  | get env orderId s => exact getOrder_inv h
  | recheck env req s => exact recheckPayment_inv h
  | expire env batchSize s => exact expirePendingOrders_inv h

theorem sysInv_init : SysInv initState := by
  refine ⟨by simp [initState], by simp [initState], ?_, ?_⟩
  · intro uid w hw
    simp [initState, lookupA] at hw
  · intro uid w oid t hw ht
    simp [initState, lookupA] at hw

theorem sysInv_reachable {s : SysState} (h : Reachable s) : SysInv s := by
  induction h with
  | refl => exact sysInv_init
  | tail _ hstep ih => exact (step_inv ih hstep).1

/-! ## Atomic-credit executions and the balance invariant

The balance half of the ledger invariant fails in executions where a
credit dies between its balance commit and its history write (see the
claim C4 counterexample), so it is proved over the sub-relation of steps
whose credits are atomic: every `verifyPayment` step either fully commits
its credit or fails before the balance transaction commits. -/

/-- Same steps as `Step`, except that a verification's credit never fails
between the balance commit and the history write. -/
inductive StepAC : SysState → SysState → Prop where
  | create (env : CreateEnv) (req : CreateReq) (s : SysState)
      (fresh : lookupA env.orderId s.orders = none) : StepAC s (createOrder env req s).2
  | verify (env : VerifyEnv) (req : VerifyReq) (s : SysState)
      (hnf : env.credit ≠ .historyFault) : StepAC s (verifyPayment env req s).state
  | cancel (env : CancelEnv) (req : CancelReq) (s : SysState) :
      StepAC s (cancelOrder env req s).2
  | get (env : GetEnv) (orderId : String) (s : SysState) :
      StepAC s (getOrder env orderId s).2
  | recheck (env : RecheckEnv) (req : RecheckReq) (s : SysState) :
      StepAC s (recheckPayment env req s).2
  | expire (env : ExpireEnv) (batchSize : Nat) (s : SysState) :
      StepAC s (expirePendingOrders env batchSize s).2

def ReachableAC (s : SysState) : Prop := Relation.ReflTransGen StepAC initState s

theorem stepAC_step {s s' : SysState} (h : StepAC s s') : Step s s' := by
  cases h with
  | create env req s fresh => exact Step.create env req s fresh
  | verify env req s _ => exact Step.verify env req s
  | cancel env req s => exact Step.cancel env req s
  | get env orderId s => exact Step.get env orderId s
  | recheck env req s => exact Step.recheck env req s
  | expire env batchSize s => exact Step.expire env batchSize s

theorem createOrder_wallets (env : CreateEnv) (req : CreateReq) (s : SysState) :
    ((createOrder env req s).2).wallets = s.wallets := by
  unfold createOrder
  repeat' split
  all_goals rfl

theorem cancelOrder_wallets (env : CancelEnv) (req : CancelReq) (s : SysState) :
    ((cancelOrder env req s).2).wallets = s.wallets := by
  unfold cancelOrder
  repeat' split
  all_goals rfl

theorem getOrder_wallets (env : GetEnv) (orderId : String) (s : SysState) :
    ((getOrder env orderId s).2).wallets = s.wallets := by
  simp only [getOrder]
  repeat' split
  all_goals rfl

theorem recheckPayment_wallets (env : RecheckEnv) (req : RecheckReq) (s : SysState) :
    ((recheckPayment env req s).2).wallets = s.wallets := by
  simp only [recheckPayment]
  repeat' split
  all_goals rfl

theorem expireLoop_wallets (env : ExpireEnv) (ps : List (String × Order)) :
    ∀ (s : SysState) (count : Nat), ((expireLoop env ps s count).2).wallets = s.wallets := by
  induction ps with
  | nil => intro s count; rfl
  | cons p rest ih =>
    obtain ⟨oid, o⟩ := p
    intro s count
    simp only [expireLoop]
    split
    · split
      · cases hl : lookupA oid s.orders with
        | none => exact ih s (count + 1)
        | some cur => exact (ih _ (count + 1)).trans rfl
      · exact ih s count
    · exact ih s count

theorem expirePendingOrders_wallets (env : ExpireEnv) (batchSize : Nat) (s : SysState) :
    ((expirePendingOrders env batchSize s).2).wallets = s.wallets := by
  unfold expirePendingOrders
  exact expireLoop_wallets env _ s 0

/-- A fully committed credit on top of a coupled, balanced state keeps
every wallet balanced, whatever happens to the orders collection. -/
theorem balanced_setA_credit {s : SysState} {oid uid : String} {o : Order}
    (h : SysInv s) (hb : BalancedInv s) (heq : lookupA oid s.orders = some o)
    (hp : o.status = .PENDING) (amount : ℚ) (now : Int) (l : List (String × Order)) :
    BalancedInv { orders := l,
                  wallets := setA uid
                    (updateWalletBalance (lookupA uid s.wallets) amount oid .CREDIT now)
                    s.wallets } := by
  intro uid2 w2 hw2
  by_cases hu : uid2 = uid
  · subst hu
    rw [lookupA_setA_self] at hw2
    injection hw2 with e
    subst e
    cases hw0 : lookupA uid2 s.wallets with
    | none => exact walletBalance_update_none amount oid .CREDIT now
    | some w0 =>
      exact walletBalance_update_some (hb uid2 w0 hw0) amount oid .CREDIT now
        (pending_not_in_history h heq hp hw0)
  · rw [lookupA_setA_ne _ _ hu] at hw2
    exact hb uid2 w2 hw2

theorem verifyCommit_balanced {env : VerifyEnv} {req : VerifyReq} {s : SysState} {o : Order}
    (h : SysInv s) (hb : BalancedInv s) (heq : lookupA req.orderId s.orders = some o)
    (hp : o.status = .PENDING) (hnf : env.credit ≠ .historyFault) :
    BalancedInv (verifyCommit env req s o).state := by
  simp only [verifyCommit]
  split
  · exact balanced_setA_credit h hb heq hp req.amount env.now _
  · exact hb
  · next heqc => exact absurd heqc hnf

theorem verifyPayment_balanced {env : VerifyEnv} {req : VerifyReq} {s : SysState}
    (h : SysInv s) (hb : BalancedInv s) (hnf : env.credit ≠ .historyFault) :
    BalancedInv (verifyPayment env req s).state := by
  delta verifyPayment
  split
  · exact hb
  split
  · exact hb
  split
  · exact hb
  split
  · exact hb
  next o heq =>
    split
    · exact hb
    next hstat =>
      have hp : o.status = .PENDING := not_not.mp hstat
      split
      · exact hb
      split
      · exact hb
      split
      · exact hb
      split
      · exact hb
      next upi =>
        split
        · exact hb
        · exact verifyCommit_balanced h hb heq hp hnf

theorem stepAC_balanced {s s' : SysState} (h : SysInv s) (hb : BalancedInv s)
    (st : StepAC s s') : BalancedInv s' := by
  cases st with
  | create env req s fresh =>
    intro uid w hw
    rw [createOrder_wallets] at hw
    exact hb uid w hw
  | verify env req s hnf => exact verifyPayment_balanced h hb hnf
  | cancel env req s =>
    intro uid w hw
    rw [cancelOrder_wallets] at hw
    exact hb uid w hw
  | get env orderId s =>
    intro uid w hw
    rw [getOrder_wallets] at hw
    exact hb uid w hw
  | recheck env req s =>
    intro uid w hw
    rw [recheckPayment_wallets] at hw
    exact hb uid w hw
  | expire env batchSize s =>
    intro uid w hw
    rw [expirePendingOrders_wallets] at hw
    exact hb uid w hw

theorem sysInv_balanced_reachableAC {s : SysState} (h : ReachableAC s) :
    SysInv s ∧ BalancedInv s := by
  induction h with
  | refl =>
    refine ⟨sysInv_init, ?_⟩
    intro uid w hw
    simp [initState, lookupA] at hw
  | tail _ hstep ih =>
    exact ⟨(step_inv ih.1 (stepAC_step hstep)).1, stepAC_balanced ih.1 ih.2 hstep⟩

/-! ## Event-trace helpers -/

/-- The status values written to `payments/<oid>` during a run, in program
order. -/
def statusWritesFor (oid : String) (evs : List SysEv) : List Status :=
  evs.filterMap fun e =>
    match e with
    | .orderWrite oid' st => if oid' = oid then some st else none
    | _ => none

/-- The stored status of order `oid` over a run: the initial status followed
by each written status. -/
def statusTraceFor (oid : String) (init : Status) (evs : List SysEv) : List Status :=
  init :: statusWritesFor oid evs

/-- A status trace is monotone when every transition starts from PENDING
(equivalently: a terminal status is never overwritten by a different one). -/
def statusMonotone : List Status → Bool
  | a :: b :: rest =>
      (decide (a = Status.PENDING) || decide (b = a)) && statusMonotone (b :: rest)
  | _ => true

def isWalletCreditFor (uid oid : String) : SysEv → Bool
  | .walletCredit u o _ => decide (u = uid) && decide (o = oid)
  | _ => false

def isSuccessWriteFor (oid : String) : SysEv → Bool
  | .orderWrite o st => decide (o = oid) && decide (st = Status.SUCCESS)
  | _ => false

/-- Whether, in the event list of a run, some wallet credit for
`(uid, oid)` occurs strictly before some SUCCESS status write of `oid`. -/
def creditBeforeStatusWrite (uid oid : String) (evs : List SysEv) : Bool :=
  match evs.findIdx? (isWalletCreditFor uid oid), evs.findIdx? (isSuccessWriteFor oid) with
  | some i, some j => i < j
  | _, _ => false

/-! ## A concrete scenario used by the witnesses and counterexamples

One order `TRN-1` for ₹100 by `user1`, created at `t = 0` (so
`expiresAt = 300000`), with the configured UPI id `pay@upi`. -/

def cenv0 : CreateEnv := { orderId := "TRN-1", now := 0, upiDetails := some ("pay@upi", "PKD") }

def creq0 : CreateReq := { amount := 100, userId := "user1" }

/-- The store after creating the order: one PENDING order `TRN-1`. -/
def s1 : SysState := (createOrder cenv0 creq0 initState).2

def venv0 : VerifyEnv :=
  { verifyLockOk := true, orderLockHeld := false, upiDetails := some "pay@upi",
    credit := .ok, now := 1000 }

def vreq0 : VerifyReq :=
  { orderId := "TRN-1", transactionId := "TX1", upiId := "pay@upi", amount := 100,
    userId := "user1" }

/-- The store after a successful verification: order `TRN-1` SUCCESS and
the wallet of `user1` credited with 100. -/
def s2 : SysState := (verifyPayment venv0 vreq0 s1).state

theorem reach_s1 : Reachable s1 :=
  Relation.ReflTransGen.single (Step.create cenv0 creq0 initState (by decide))

theorem reach_s2 : Reachable s2 :=
  reach_s1.tail (Step.verify venv0 vreq0 s1)

/-! ## Claims -/

/-- C3, counterexample. The claim says `verifyPayment` takes the same
per-order lock as the expire/cancel transitions, so the two can never hold
their locks simultaneously. On the concrete order id `TRN-1` the two lock
keys differ (`payment:verify:TRN-1` vs `order:TRN-1`), and from an empty
lock store a verification acquisition followed by a cancel/expire
acquisition both succeed, after which both locks are simultaneously held. -/
theorem C3_counterexample :
    verifyLockKey "TRN-1" ≠ orderLockKey "TRN-1" ∧
    (acquireLock emptyLockStore (verifyLockKey "TRN-1") "tokV" 0 45000).2 = true ∧
    (acquireLock (acquireLock emptyLockStore (verifyLockKey "TRN-1") "tokV" 0 45000).1
      (orderLockKey "TRN-1") "tokO" 0 30000).2 = true ∧
    ((acquireLock (acquireLock emptyLockStore (verifyLockKey "TRN-1") "tokV" 0 45000).1
      (orderLockKey "TRN-1") "tokO" 0 30000).1 (verifyLockKey "TRN-1")).isSome = true ∧
    ((acquireLock (acquireLock emptyLockStore (verifyLockKey "TRN-1") "tokV" 0 45000).1
      (orderLockKey "TRN-1") "tokO" 0 30000).1 (orderLockKey "TRN-1")).isSome = true := by
  decide

/-- C3, amended: the lock acquired by `verifyPayment` is
`payment:verify:<orderId>` (payments.js 59) while cancel, lazy expiry, the
batch sweep and recheck acquire `order:<orderId>`; for every order id the
two keys differ, and the two locks can be acquired and held at the same
time (verify instead consults `isLocked('order:<orderId>')` as a separate,
non-atomic probe, payments.js 110). -/
theorem C3_verify_and_order_locks_differ (oid tok1 tok2 : String) (now1 t1 now2 t2 : Int) :
    verifyLockKey oid ≠ orderLockKey oid ∧
    (acquireLock emptyLockStore (verifyLockKey oid) tok1 now1 t1).2 = true ∧
    (acquireLock (acquireLock emptyLockStore (verifyLockKey oid) tok1 now1 t1).1
      (orderLockKey oid) tok2 now2 t2).2 = true ∧
    ((acquireLock (acquireLock emptyLockStore (verifyLockKey oid) tok1 now1 t1).1
      (orderLockKey oid) tok2 now2 t2).1 (verifyLockKey oid)).isSome = true ∧
    ((acquireLock (acquireLock emptyLockStore (verifyLockKey oid) tok1 now1 t1).1
      (orderLockKey oid) tok2 now2 t2).1 (orderLockKey oid)).isSome = true := by
  have hne : verifyLockKey oid ≠ orderLockKey oid := by
    intro h
    have hlen := congrArg String.length h
    rw [verifyLockKey, orderLockKey, String.length_append, String.length_append] at hlen
    have h1 : ("payment:verify:" : String).length = 15 := rfl
    have h2 : ("order:" : String).length = 6 := rfl
    rw [h1, h2] at hlen
    omega
  refine ⟨hne, ?_, ?_, ?_, ?_⟩
  · simp [acquireLock, acquireTxn, emptyLockStore]
  · simp [acquireLock, acquireTxn, emptyLockStore, Ne.symm hne]
  · simp [acquireLock, acquireTxn, emptyLockStore, Ne.symm hne, hne]
  · simp [acquireLock, acquireTxn, emptyLockStore, Ne.symm hne]

/-- C6: the claim says a lock refusal makes a lazy or batch expiry
attempt skip the order, leaving it PENDING. The batch sweep
(`expirePendingOrders`, orders.js 400) indeed checks `if (lockAcquired)`
and skips, but the lazy expiry in `GET /:orderId` (orders.js 178) discards
the return value of `acquireLock`, so on a refusal it writes EXPIRED
anyway. This theorem evaluates both paths at the failing input: the same
expired PENDING order, the per-order lock refused. -/
theorem C6_lazy_expiry_ignores_lock_refusal :
    (lookupA "TRN-1"
      (getOrder { isLockedResult := false, acquireOutcome := .refused, now := 300000 }
        "TRN-1" s1).2.orders).map Order.status = some .EXPIRED ∧
    (getOrder { isLockedResult := false, acquireOutcome := .refused, now := 300000 }
      "TRN-1" s1).1 = .ok .EXPIRED true ∧
    expirePendingOrders { acquire := fun _ => .refused, now := 600000 } 100 s1 = (0, s1) := by
  decide

/-- C7, counterexample. At the boundary instant `now = expiresAt`
(order created at 0, `expiresAt = 300000`), `checkExpiry` is false
(time.js 85 uses strict `>`), so verification is NOT rejected — the run
succeeds — and the `checkExpiry`-based batch expiry is NOT permitted
(orders.js 394 uses strict `>` as well); the claim asserts the opposite on
both counts at this instant. -/
theorem C7_counterexample :
    checkExpiry 0 ORDER_EXPIRY_MINUTES 300000 = false ∧
    (verifyPayment { venv0 with now := 300000 } vreq0 s1).result = .success 100 ∧
    expirePendingOrders { acquire := fun _ => .acquired, now := 300000 } 100 s1 = (0, s1) := by
  decide

/-- C7, amended: the verify-side expiry rejection and the
`checkExpiry`-based expiry paths (verify auto-expire, recheck, batch sweep)
fire exactly when `now > expiresAt` — strictly — so at `now = expiresAt`
verification still proceeds and those expiry paths are not permitted; only
the lazy expiry of `GET /:orderId`, whose guard is `remainingTime = 0`,
fires at `now ≥ expiresAt` and hence already at the boundary instant. -/
theorem C7_expiry_boundaries (createdAt m now expiresAt now' : Int) :
    (checkExpiry createdAt m now = true ↔ now > calculateExpiryTime createdAt m) ∧
    checkExpiry createdAt m (calculateExpiryTime createdAt m) = false ∧
    (maxI 0 (expiresAt - now') = 0 ↔ expiresAt ≤ now') := by
  refine ⟨?_, ?_, ?_⟩
  · simp [checkExpiry]
  · simp [checkExpiry]
  · simp only [maxI]
    split
    · omega
    · omega

/-- C8: the release transaction (lock.js 170-184) clears a present lock
record exactly when the supplied token matches the stored one, clears
unconditionally when no token is supplied, and never clears a record owned
by a different token when a token is supplied. -/
theorem C8_release_compare_and_clear (store : LockStore) (key : String) (l : Lock)
    (h : store key = some l) :
    (releaseLock store key (some l.token)).1 key = none ∧
    (∀ t, t ≠ l.token → (releaseLock store key (some t)).1 key = some l) ∧
    (releaseLock store key none).1 key = none := by
  refine ⟨?_, ?_, ?_⟩
  · simp [releaseLock, releaseTxn, h]
  · intro t ht
    simp [releaseLock, releaseTxn, h, Ne.symm ht]
  · simp [releaseLock, releaseTxn, h]

/-- A concrete one-lock store for the lock-release witnesses. -/
def lockW : Lock := { token := "tokA", acquiredAt := 0, expiresAt := 30000, timeoutMs := 30000 }

def lockStoreW : LockStore := fun k => if k = "order:TRN-1" then some lockW else none

/-- Witness for C8 at a concrete store: matching token clears, a different
token leaves the record, no token force-clears. -/
theorem C8_release_compare_and_clear_witness :
    (releaseLock lockStoreW "order:TRN-1" (some "tokA")).1 "order:TRN-1" = none ∧
    (releaseLock lockStoreW "order:TRN-1" (some "tokB")).1 "order:TRN-1" = some lockW ∧
    (releaseLock lockStoreW "order:TRN-1" none).1 "order:TRN-1" = none := by
  have h := C8_release_compare_and_clear lockStoreW "order:TRN-1" lockW (by decide)
  exact ⟨h.1, h.2.1 "tokB" (by decide), h.2.2⟩

/-- C9: the transaction function of `releaseLock` never aborts, so
`result.committed` is true and `releaseLock` returns `true` even when the
stored lock belongs to a different token and is left in place: a `true`
return does not imply the record was removed. -/
theorem C9_release_true_without_removal (store : LockStore) (key : String) (l : Lock)
    (t : String) (h : store key = some l) (hne : l.token ≠ t) :
    (releaseLock store key (some t)).2 = true ∧
    (releaseLock store key (some t)).1 key = some l := by
  constructor
  · rfl
  · simp [releaseLock, releaseTxn, h, hne]

/-- Witness for C9 at a concrete store: releasing with the wrong token
reports success yet leaves the lock in place. -/
theorem C9_release_true_without_removal_witness :
    (releaseLock lockStoreW "order:TRN-1" (some "tokB")).2 = true ∧
    (releaseLock lockStoreW "order:TRN-1" (some "tokB")).1 "order:TRN-1" = some lockW :=
  C9_release_true_without_removal lockStoreW "order:TRN-1" lockW "tokB" (by decide) (by decide)

/-! ### C5 — withIdempotency and the TTL -/

def memC5 : String → Option (CacheEntry Nat) :=
  fun k => if k = "idempotency:K" then some { result := 42, expiresAt := 0 } else none

def durEmptyC5 : String → Option (IdemRecord Nat) := fun _ => none

/-- C5, counterexample. The claim says a stored result is returned only
while non-expired, whether it is found in the in-process cache or the
durable store. Here the in-process cache holds a record whose `expiresAt`
(0) is long past `now` (1000), yet `withIdempotency` returns it without
re-executing the operation: lock.js 328-332 never consults `expiresAt`. -/
theorem C5_counterexample :
    (withIdempotency memC5 durEmptyC5 "K" 7 1000).result = 42 ∧
    (withIdempotency memC5 durEmptyC5 "K" 7 1000).executed = false ∧
    (memC5 "idempotency:K").map CacheEntry.expiresAt = some 0 ∧
    (0 : Int) < 1000 := by
  decide

/-- C5, amended: only the durable-store lookup (lock.js 336-350)
enforces the TTL — with no in-process cache entry, the operation is skipped
exactly when the durable record exists and is non-expired; an in-process
cache hit (lock.js 328-332) is returned as-is, regardless of its
`expiresAt`, until the periodic sweep evicts it. -/
theorem C5_ttl_checked_only_in_durable_store {R : Type}
    (mem : String → Option (CacheEntry R)) (dur : String → Option (IdemRecord R))
    (key : String) (op : R) (now : Int) :
    (∀ c, mem ("idempotency:" ++ key) = some c →
      (withIdempotency mem dur key op now).result = c.result ∧
      (withIdempotency mem dur key op now).executed = false) ∧
    (mem ("idempotency:" ++ key) = none →
      ((withIdempotency mem dur key op now).executed = false ↔
        ∃ d, dur key = some d ∧ now < d.expiresAt)) := by
  constructor
  · intro c hc
    simp [withIdempotency, hc]
  · intro hmem
    simp only [withIdempotency, hmem]
    cases hd : dur key with
    | none =>
      simp
    | some d =>
      dsimp only
      by_cases hlt : d.expiresAt > now
      · rw [if_pos hlt]
        constructor
        · intro _
          exact ⟨d, rfl, hlt⟩
        · intro _
          rfl
      · rw [if_neg hlt]
        constructor
        · intro hfalse
          exact Bool.noConfusion hfalse
        · rintro ⟨d', hd', hlt'⟩
          injection hd' with e
          subst e
          exact absurd hlt' hlt

def memC5W : String → Option (CacheEntry Nat) :=
  fun k => if k = "idempotency:KW" then some { result := 9, expiresAt := 99 } else none

/-- Witness for C5 (amended) at concrete inputs: an in-process hit is
returned without execution, and with an empty in-process cache the
executed-or-not verdict matches the durable store's non-expired lookup. -/
theorem C5_ttl_checked_only_in_durable_store_witness :
    ((withIdempotency memC5W durEmptyC5 "KW" 7 5).result = 9 ∧
      (withIdempotency memC5W durEmptyC5 "KW" 7 5).executed = false) ∧
    ((withIdempotency (fun _ => none) durEmptyC5 "KW" 7 5).executed = false ↔
      ∃ d, durEmptyC5 "KW" = some d ∧ (5 : Int) < d.expiresAt) :=
  ⟨(C5_ttl_checked_only_in_durable_store memC5W durEmptyC5 "KW" 7 5).1
      { result := 9, expiresAt := 99 } (by decide),
   (C5_ttl_checked_only_in_durable_store (fun _ => none) durEmptyC5 "KW" 7 5).2 rfl⟩

/-! ### C2 — terminal statuses -/

/-- C2, counterexample. In the credit-failure run of `verifyPayment`
the stored status of the order goes PENDING → SUCCESS → PENDING
(payments.js 167 then 187): the second store write leaves the terminal
status SUCCESS, so at the granularity of individual status writes the
claimed monotonicity fails. -/
theorem C2_counterexample :
    statusTraceFor "TRN-1" .PENDING
      (verifyPayment { venv0 with credit := .balanceFault } vreq0 s1).events =
      [.PENDING, .SUCCESS, .PENDING] ∧
    statusMonotone (statusTraceFor "TRN-1" .PENDING
      (verifyPayment { venv0 with credit := .balanceFault } vreq0 s1).events) = false := by
  decide

/-- C2, amended: at whole-operation granularity the invariant holds —
every operation (create, verify, cancel, getOrder, recheck, batch expiry)
run on a reachable state leaves every order whose stored status is terminal
(not PENDING) completely unchanged; it is only *within* the credit-failure
path of `verifyPayment` that a SUCCESS write is later overwritten by the
PENDING rollback (see the counterexample). -/
theorem C2_terminal_status_stable {s s' : SysState} (hreach : Reachable s)
    (hstep : Step s s') (oid : String) (o : Order)
    (ho : lookupA oid s.orders = some o) (hterm : o.status ≠ .PENDING) :
    lookupA oid s'.orders = some o :=
  (step_inv (sysInv_reachable hreach) hstep).2 oid o ho hterm

def cancelEnv0 : CancelEnv := { lockOk := true, now := 10 }

def cancelReq0 : CancelReq := { orderId := "TRN-1", userId := "user1" }

/-- The store after the owner cancels the pending order. -/
def sCan : SysState := (cancelOrder cancelEnv0 cancelReq0 s1).2

theorem reach_sCan : Reachable sCan :=
  reach_s1.tail (Step.cancel cancelEnv0 cancelReq0 s1)

/-- The CANCELLED record of `TRN-1` in `sCan`. -/
def oCan : Order :=
  { orderId := "TRN-1", amount := 100, userId := "user1", upiId := "pay@upi",
    upiName := "PKD", status := .CANCELLED, createdAt := 0, expiresAt := 300000,
    updatedAt := some 10, cancelledAt := some 10, cancelledBy := some "user1" }

/-- Witness for C2 (amended): a verification attempt against the CANCELLED
order leaves its record untouched. -/
theorem C2_terminal_status_stable_witness :
    lookupA "TRN-1" (verifyPayment venv0 vreq0 sCan).state.orders = some oCan :=
  C2_terminal_status_stable reach_sCan (Step.verify venv0 vreq0 sCan) "TRN-1" oCan
    (by decide) (by decide)

/-! ### C4 — the wallet-ledger invariant -/

/-- A verification whose credit dies between the balance commit
(firebase.js 174-189) and the history write (firebase.js 196-204). -/
def venvHF : VerifyEnv :=
  { verifyLockOk := true, orderLockHeld := false, upiDetails := some "pay@upi",
    credit := .historyFault, now := 1000 }

/-- The store after that partially failed verification: the order is back
to PENDING, the wallet of `user1` holds balance 100 with an empty
history. -/
def sHF : SysState := (verifyPayment venvHF vreq0 s1).state

theorem reach_sHF : Reachable sHF :=
  reach_s1.tail (Step.verify venvHF vreq0 s1)

/-- The wallet of `user1` in `sHF`: credited balance, no history entry. -/
def wHF : Wallet := { balance := 100, createdAt := 1000, updatedAt := 1000, history := [] }

/-- A later retry of the verification (the order is PENDING again),
whose credit fully succeeds. -/
def venvRetry : VerifyEnv :=
  { verifyLockOk := true, orderLockHeld := false, upiDetails := some "pay@upi",
    credit := .ok, now := 2000 }

/-- The store after the retry: the order ends SUCCESS, yet the first
(phantom) balance increment is still unmatched by any history entry. -/
def sHF2 : SysState := (verifyPayment venvRetry vreq0 sHF).state

theorem reach_sHF2 : Reachable sHF2 :=
  reach_sHF.tail (Step.verify venvRetry vreq0 sHF)

/-- The wallet of `user1` in `sHF2`: balance 200, history summing to 100. -/
def wHF2 : Wallet :=
  { balance := 200, createdAt := 1000, updatedAt := 2000,
    history := [("TRN-1",
      { orderId := "TRN-1", amount := 100, type := .CREDIT, timestamp := 2000,
        previousBalance := 100, newBalance := 200 })] }

/-- C4, counterexample. `updateWalletBalance` commits its balance
transaction before the separate history write, so a failure between the
two (firebase.js 196-204 throwing after 174-193 committed) ends the
operation with the balance incremented and no history entry:
`balance = 100 ≠ 0 = sum(history)` in the reachable state `sHF`. The order
was rolled back to PENDING, so the retried verification then credits the
balance a second time: in `sHF2` the order is SUCCESS and
`balance = 200 ≠ 100 = sum(history)`. -/
theorem C4_counterexample :
    Reachable sHF ∧
    lookupA "user1" sHF.wallets = some wHF ∧
    wHF.balance ≠ (wHF.history.map fun p => p.2.amount).sum ∧
    Reachable sHF2 ∧
    lookupA "user1" sHF2.wallets = some wHF2 ∧
    (lookupA "TRN-1" sHF2.orders).map Order.status = some .SUCCESS ∧
    wHF2.balance ≠ (wHF2.history.map fun p => p.2.amount).sum := by
  exact ⟨reach_sHF, by decide, by decide, reach_sHF2, by decide, by decide, by decide⟩

theorem reachAC_s1 : ReachableAC s1 :=
  Relation.ReflTransGen.single (StepAC.create cenv0 creq0 initState (by decide))

theorem reachAC_s2 : ReachableAC s2 :=
  reachAC_s1.tail (StepAC.verify venv0 vreq0 s1 (by decide))

/-- The credited wallet of `user1` in `s2`: one history entry for `TRN-1`
(its `previousBalance` is the computed `100 - 100`). -/
def wSucc : Wallet :=
  { balance := 100, createdAt := 1000, updatedAt := 1000,
    history := [("TRN-1",
      { orderId := "TRN-1", amount := 100, type := .CREDIT, timestamp := 1000,
        previousBalance := 100 - 100, newBalance := 100 })] }

/-- C4, amended: in every state reachable by operations whose wallet
credits are atomic — each credit either commits both the balance
transaction and the history write, or fails before the balance commits —
every wallet's balance equals the sum of the signed amounts of its history
entries and each order id appears at most once among the history keys; a
credit failing between its two writes breaks the balance half (see the
counterexample), while the at-most-once half holds in all executions. -/
theorem C4_wallet_invariant_atomic_credits :
    (∀ s : SysState, ReachableAC s → ∀ uid w, lookupA uid s.wallets = some w →
      w.balance = (w.history.map fun p => p.2.amount).sum ∧
        (w.history.map Prod.fst).Nodup) ∧
    (∀ s : SysState, Reachable s → ∀ uid w, lookupA uid s.wallets = some w →
      (w.history.map Prod.fst).Nodup) := by
  constructor
  · intro s hs uid w hw
    obtain ⟨hi, hb⟩ := sysInv_balanced_reachableAC hs
    exact ⟨hb uid w hw, hi.2.2.1 uid w hw⟩
  · intro s hs uid w hw
    exact (sysInv_reachable hs).2.2.1 uid w hw

/-- Witness for C4 (amended): the invariant at the concrete
atomic-credit state `s2`, and the key-uniqueness half at the concrete
partial-failure state `sHF`. -/
theorem C4_wallet_invariant_atomic_credits_witness :
    (wSucc.balance = (wSucc.history.map fun p => p.2.amount).sum ∧
      (wSucc.history.map Prod.fst).Nodup) ∧
    (wHF.history.map Prod.fst).Nodup :=
  ⟨C4_wallet_invariant_atomic_credits.1 s2 reachAC_s2 "user1" wSucc (by decide),
   C4_wallet_invariant_atomic_credits.2 sHF reach_sHF "user1" wHF (by decide)⟩

/-! ### C1 and C10 — the verify path -/

/-- With every check passing on a pending, unexpired order, `verifyPayment`
runs its commit tail (payments.js 166-223). -/
theorem verifyPayment_eq_commit {env : VerifyEnv} {req : VerifyReq} {s : SysState} {o : Order}
    (h1 : req.orderId ≠ "") (h2 : req.transactionId ≠ "") (h3 : req.upiId ≠ "")
    (h4 : req.amount ≠ 0) (h5 : req.userId ≠ "") (h6 : ¬req.amount ≤ 0)
    (hlock : env.verifyLockOk = true)
    (ho : lookupA req.orderId s.orders = some o)
    (hp : o.status = .PENDING)
    (hexp : checkExpiry o.createdAt ORDER_EXPIRY_MINUTES env.now = false)
    (hheld : env.orderLockHeld = false)
    (hamt : ¬absQ (req.amount - o.amount) > 1 / 100)
    (hupi : env.upiDetails = some req.upiId) :
    verifyPayment env req s = verifyCommit env req s o := by
  have hamt' : ¬(100 : ℚ)⁻¹ < absQ (req.amount - o.amount) := by simpa using hamt
  simp [verifyPayment, ho, h1, h2, h3, h4, h5, h6, hlock, hp, hexp, hheld, hamt, hamt', hupi]

/-- C1, counterexample. In the all-checks-pass, credit-succeeds run on
the concrete pending order, the event list of the run is
`[SUCCESS status write, wallet credit]`: the order-status write comes
*first* (payments.js 167 precedes 179), so the claimed
credit-before-status-write ordering is false, and between the two events
the store holds a SUCCESS order with no wallet credit. -/
theorem C1_counterexample :
    (verifyPayment venv0 vreq0 s1).result = .success 100 ∧
    (verifyPayment venv0 vreq0 s1).events =
      [.orderWrite "TRN-1" .SUCCESS, .walletCredit "user1" "TRN-1" 100] ∧
    (verifyPayment venv0 vreq0 s1).events.findIdx? (isSuccessWriteFor "TRN-1") = some 0 ∧
    (verifyPayment venv0 vreq0 s1).events.findIdx? (isWalletCreditFor "user1" "TRN-1") =
      some 1 ∧
    creditBeforeStatusWrite "user1" "TRN-1" (verifyPayment venv0 vreq0 s1).events = false := by
  decide

/-- C1, amended: on a PENDING, unexpired order with all checks passing,
the SUCCESS status write executes *before* the wallet credit; the SUCCESS
outcome stands only if the credit succeeds — when the credit fails (at
either of its two failure points) the order is rolled back to PENDING with
the `verificationError` annotation — so at the end of the call the order
is SUCCESS exactly when its wallet credit committed (though between the
two writes the store transiently holds SUCCESS without the credit, and a
credit failing after its balance commit leaves that balance write
behind). -/
theorem C1_success_write_precedes_credit (env : VerifyEnv) (req : VerifyReq) (s : SysState)
    (o : Order)
    (h1 : req.orderId ≠ "") (h2 : req.transactionId ≠ "") (h3 : req.upiId ≠ "")
    (h4 : req.amount ≠ 0) (h5 : req.userId ≠ "") (h6 : ¬req.amount ≤ 0)
    (hlock : env.verifyLockOk = true)
    (ho : lookupA req.orderId s.orders = some o)
    (hp : o.status = .PENDING)
    (hexp : checkExpiry o.createdAt ORDER_EXPIRY_MINUTES env.now = false)
    (hheld : env.orderLockHeld = false)
    (hamt : ¬absQ (req.amount - o.amount) > 1 / 100)
    (hupi : env.upiDetails = some req.upiId) :
    (verifyPayment env req s).events.head? =
      some (.orderWrite req.orderId .SUCCESS) ∧
    (env.credit = .ok →
      (verifyPayment env req s).events =
        [.orderWrite req.orderId .SUCCESS,
         .walletCredit req.userId req.orderId req.amount] ∧
      ∃ o', lookupA req.orderId (verifyPayment env req s).state.orders = some o' ∧
        o'.status = .SUCCESS) ∧
    (env.credit = .balanceFault →
      (verifyPayment env req s).result = .walletCreditError ∧
      (verifyPayment env req s).events =
        [.orderWrite req.orderId .SUCCESS, .orderWrite req.orderId .PENDING] ∧
      ∃ o', lookupA req.orderId (verifyPayment env req s).state.orders = some o' ∧
        o'.status = .PENDING ∧ o'.verificationError = some "WALLET_CREDIT_FAILED") ∧
    (env.credit = .historyFault →
      (verifyPayment env req s).result = .walletCreditError ∧
      (verifyPayment env req s).events =
        [.orderWrite req.orderId .SUCCESS,
         .walletBalanceWrite req.userId req.amount,
         .orderWrite req.orderId .PENDING] ∧
      ∃ o', lookupA req.orderId (verifyPayment env req s).state.orders = some o' ∧
        o'.status = .PENDING ∧ o'.verificationError = some "WALLET_CREDIT_FAILED") := by
  rw [verifyPayment_eq_commit h1 h2 h3 h4 h5 h6 hlock ho hp hexp hheld hamt hupi]
  simp only [verifyCommit]
  cases hc : env.credit with
  | ok =>
    refine ⟨rfl, fun _ => ⟨rfl, _, lookupA_setA_self _ _ _, rfl⟩, ?_, ?_⟩
    · intro hcontra
      exact nomatch hcontra
    · intro hcontra
      exact nomatch hcontra
  | balanceFault =>
    refine ⟨rfl, ?_, fun _ => ⟨rfl, rfl, _, lookupA_setA_self _ _ _, rfl, rfl⟩, ?_⟩
    · intro hcontra
      exact nomatch hcontra
    · intro hcontra
      exact nomatch hcontra
  | historyFault =>
    refine ⟨rfl, ?_, ?_, fun _ => ⟨rfl, rfl, _, lookupA_setA_self _ _ _, rfl, rfl⟩⟩
    · intro hcontra
      exact nomatch hcontra
    · intro hcontra
      exact nomatch hcontra

/-- The PENDING record of `TRN-1` in `s1`. -/
def oPend : Order :=
  { orderId := "TRN-1", amount := 100, userId := "user1", upiId := "pay@upi",
    upiName := "PKD", status := .PENDING, createdAt := 0, expiresAt := 300000 }

/-- Witness for C1 (amended) on the concrete successful run. -/
theorem C1_success_write_precedes_credit_witness :
    (verifyPayment venv0 vreq0 s1).events.head? =
      some (.orderWrite "TRN-1" .SUCCESS) ∧
    ((verifyPayment venv0 vreq0 s1).events =
      [.orderWrite "TRN-1" .SUCCESS, .walletCredit "user1" "TRN-1" 100] ∧
    ∃ o', lookupA "TRN-1" (verifyPayment venv0 vreq0 s1).state.orders = some o' ∧
      o'.status = .SUCCESS) :=
  have h := C1_success_write_precedes_credit venv0 vreq0 s1 oPend
    (by decide) (by decide) (by decide) (by decide) (by decide) (by decide)
    (by decide) (by decide) (by decide) (by decide) (by decide) (by decide) (by decide)
  ⟨h.1, h.2.1 rfl⟩

/-- C10, counterexample. For a PENDING order that is *expired*, a held
`order:<orderId>` lock does not produce ORDER_CANCELLED: step 3
(payments.js 93-107) fires first, returns ORDER_EXPIRED and writes the
order to EXPIRED — the record is not left unchanged. -/
theorem C10_counterexample :
    (verifyPayment { venv0 with orderLockHeld := true, now := 300001 } vreq0 s1).result =
      .orderExpired ∧
    (verifyPayment { venv0 with orderLockHeld := true, now := 300001 } vreq0 s1).result ≠
      .orderCancelled ∧
    (lookupA "TRN-1"
      (verifyPayment { venv0 with orderLockHeld := true, now := 300001 }
        vreq0 s1).state.orders).map Order.status = some .EXPIRED := by
  decide

/-- C10, amended: for a PENDING, *unexpired* order (with the request
fields present and the `payment:verify` lock acquired), `verifyPayment`
returns ORDER_CANCELLED whenever `isLocked('order:<orderId>')` reports the
per-order lock held — even though the status is not CANCELLED — and leaves
the store unchanged (payments.js 110-117). -/
theorem C10_locked_pending_reports_cancelled (env : VerifyEnv) (req : VerifyReq)
    (s : SysState) (o : Order)
    (h1 : req.orderId ≠ "") (h2 : req.transactionId ≠ "") (h3 : req.upiId ≠ "")
    (h4 : req.amount ≠ 0) (h5 : req.userId ≠ "") (h6 : ¬req.amount ≤ 0)
    (hlock : env.verifyLockOk = true)
    (ho : lookupA req.orderId s.orders = some o)
    (hp : o.status = .PENDING)
    (hexp : checkExpiry o.createdAt ORDER_EXPIRY_MINUTES env.now = false)
    (hheld : env.orderLockHeld = true) :
    verifyPayment env req s = ⟨.orderCancelled, s, []⟩ := by
  simp [verifyPayment, ho, h1, h2, h3, h4, h5, h6, hlock, hp, hexp, hheld]

/-- Witness for C10 (amended) at the concrete pending order with the
per-order lock held. -/
theorem C10_locked_pending_reports_cancelled_witness :
    verifyPayment { venv0 with orderLockHeld := true } vreq0 s1 =
      ⟨.orderCancelled, s1, []⟩ :=
  C10_locked_pending_reports_cancelled { venv0 with orderLockHeld := true } vreq0 s1 oPend
    (by decide) (by decide) (by decide) (by decide) (by decide) (by decide)
    (by decide) (by decide) (by decide) (by decide) (by decide)

end PaymentServer
